import Mathlib

/-!
Shallow embedding of `src/quicksight_export.py`, a sequential script that
lists QuickSight resources, fetches each resource's full definition, and
writes JSON files, keeping per-type success/failure counters.

The remote service and the filesystem are modelled as an environment `Env`:
each remote call either raises (with an error text) or returns a JSON-like
payload; directory creation and file writes either succeed or fail.  The
script's global mutable state (the two counter dicts, the log file, the
console, the set of files written) is threaded explicitly as `RunState`.
-/

/-- JSON-like values, the shape of boto3 responses.  Date/time coercion to
strings (the `default=str` of `json.dump`) is irrelevant here, so values are
null, booleans, integers, strings, arrays and objects. -/
inductive JValue where
  | null
  | bool (b : Bool)
  | num (n : Int)
  | str (s : String)
  | arr (xs : List JValue)
  | obj (fields : List (String × JValue))

/-- Python truthiness of a payload: `None`, `False`, `0`, `""`, `[]` and
`{}` are falsy, everything else truthy. -/
def JValue.truthy : JValue → Bool
  | .null => false
  | .bool b => b
  | .num n => n != 0
  | .str s => !s.data.isEmpty
  | .arr xs => !xs.isEmpty
  | .obj fs => !fs.isEmpty

/-- Dictionary lookup `v[key]`; `none` both for a missing key and for a
non-dict value (in Python either raises, and the membership test
`key in v` is false for the non-dict payloads the script meets). -/
def JValue.lookup : JValue → String → Option JValue
  | .obj fs, key => (fs.find? (fun kv => kv.1 == key)).map (fun kv => kv.2)
  | _, _ => none

/-- Rendering of a value inside an f-string.  Only scalar renderings matter
to the log lines the script builds; composite values are abbreviated. -/
def JValue.pyStr : JValue → String
  | .null => "None"
  | .bool b => if b then "True" else "False"
  | .num n => toString n
  | .str s => s
  | .arr _ => "[...]"
  | .obj _ => "{...}"

/-- The three QuickSight resource types the script handles. -/
inductive RType where
  | data_sets
  | analyses
  | dashboards
deriving DecidableEq, Repr

/-- The string the script uses for a resource type (directory names,
file names, log lines, counter keys). -/
def RType.dirName : RType → String
  | .data_sets => "data_sets"
  | .analyses => "analyses"
  | .dashboards => "dashboards"

/-- Name of the field holding the summary list in a list response
(`json_object_name` in the source). -/
def json_object_name : RType → String
  | .data_sets => "DataSetSummaries"
  | .analyses => "AnalysisSummaryList"
  | .dashboards => "DashboardSummaryList"

/-- Name of the identifier field of a resource summary
(`json_object_id` in the source). -/
def json_object_id : RType → String
  | .data_sets => "DataSetId"
  | .analyses => "AnalysisId"
  | .dashboards => "DashboardId"

/-- One per-type tally (the script keeps two: `successes` and `failures`). -/
structure Counters where
  data_sets : Nat
  analyses : Nat
  dashboards : Nat
deriving DecidableEq, Repr

/-- Read the tally of one resource type. -/
def Counters.get (c : Counters) : RType → Nat
  | .data_sets => c.data_sets
  | .analyses => c.analyses
  | .dashboards => c.dashboards

/-- The `+= 1` of the source on one resource type's tally. -/
def Counters.incr (c : Counters) : RType → Counters
  | .data_sets => { c with data_sets := c.data_sets + 1 }
  | .analyses => { c with analyses := c.analyses + 1 }
  | .dashboards => { c with dashboards := c.dashboards + 1 }

/-- A line written to the log file, with its level. -/
inductive LogEvent where
  | info (msg : String)
  | error (msg : String)
  | critical (msg : String)
deriving DecidableEq, Repr

/-- A file successfully saved by `write_json_file`: the resource type, the
`file_type` argument (`"list"` or `"definition"`), the `name` argument, and
the full path written. -/
structure FileRecord where
  rtype : RType
  kind : String
  name : String
  path : String
deriving DecidableEq, Repr

/-- The script's mutable state: the two global counter dicts, the files
written so far, the directories created so far this run, the log file and
the console output. -/
structure RunState where
  successes : Counters
  failures : Counters
  files : List FileRecord
  dirs : List RType
  log : List LogEvent
  console : List String
deriving DecidableEq, Repr

/-- State at interpreter start: both counter dicts all zero, nothing
written yet. -/
def initState : RunState :=
  { successes := ⟨0, 0, 0⟩, failures := ⟨0, 0, 0⟩,
    files := [], dirs := [], log := [], console := [] }

/-- Result of a remote call: the call raises, or returns a payload. -/
inductive CallResult where
  | raises (err : String)
  | ok (resp : JValue)

/-- The external world: the remote list and describe operations, whether
`definitions/<t>/` already exists, whether creating it fails, and whether
writing a given path fails. -/
structure Env where
  listCall : RType → CallResult
  describeCall : RType → JValue → CallResult
  dirExists : RType → Bool
  mkdirFails : RType → Bool
  writeFails : String → Bool

/-- Summary string of `finish_export`, built from the two counter dicts. -/
def summaryString (s f : Counters) : String :=
  "Successfully exported " ++ toString s.data_sets ++ " datasets, " ++
  toString s.analyses ++ " analyses, and " ++ toString s.dashboards ++
  " dashboards. \n Failed to export " ++ toString f.data_sets ++
  " datasets, " ++ toString f.analyses ++ " analyses, and " ++
  toString f.dashboards ++ " dashboards."

/-- What the process ends with: the final counters, the summary line, the
complete log and console transcripts, the files written, and the process
exit code. -/
structure FinalResult where
  successes : Counters
  failures : Counters
  summary : String
  files : List FileRecord
  log : List LogEvent
  console : List String
  exitCode : Nat
deriving DecidableEq, Repr

/-- `finish_export()`: build the summary from the counters, log it, print
it, and exit the process.  Bare `sys.exit()` exits with status 0. -/
def finish_export (st : RunState) : FinalResult :=
  { successes := st.successes, failures := st.failures,
    summary := summaryString st.successes st.failures,
    files := st.files,
    log := st.log ++ [LogEvent.info (summaryString st.successes st.failures)],
    console := st.console ++ [summaryString st.successes st.failures],
    exitCode := 0 }

/-- `list_quicksight_resources`: call the remote list operation; on success
log and print a retrieval line and return the response, on an exception log
and print the error and return `None`. -/
def list_quicksight_resources (env : Env) (t : RType) (st : RunState) :
    RunState × Option JValue :=
  match env.listCall t with
  | .ok resp =>
      let msg := "Retrieved " ++ t.dirName ++ " list"
      ({ st with log := st.log ++ [LogEvent.info msg],
                 console := st.console ++ [msg] }, some resp)
  | .raises err =>
      let msg := "Failed to retrieve " ++ t.dirName ++ " list: " ++ err
      ({ st with log := st.log ++ [LogEvent.error msg],
                 console := st.console ++ [msg] }, none)

/-- Outcome of `get_quicksight_resource`: an updated state and an optional
payload, or an uncaught exception (the source indexes
`response["Error"]["Code"]` and `["Message"]` without guarding them). -/
inductive FetchStep where
  | ok (st : RunState) (payload : Option JValue)
  | crashed (msg : String)

/-- `get_quicksight_resource`: dispatch the type-specific describe call.
If it raises, log the error, increment the failure counter for the type,
and return `None`.  If the payload carries an `Error` key, log the embedded
error code and message and return `None` — the source does not increment
the failure counter on this path.  Otherwise log and return the payload. -/
def get_quicksight_resource (env : Env) (t : RType) (rid : JValue)
    (st : RunState) : FetchStep :=
  match env.describeCall t rid with
  | .raises err =>
      let msg := "AWS call for " ++ t.dirName ++ " " ++ rid.pyStr ++
        " failed: " ++ err
      .ok { st with log := st.log ++ [LogEvent.error msg],
                    failures := st.failures.incr t } none
  | .ok resp =>
      match resp.lookup "Error" with
      | some errObj =>
          match errObj.lookup "Code", errObj.lookup "Message" with
          | some code, some message =>
              let msg := "Failed to retrieve " ++ t.dirName ++ " " ++
                rid.pyStr ++ " \nAWS error code: " ++ code.pyStr ++
                "; Message: " ++ message.pyStr
              .ok { st with log := st.log ++ [LogEvent.error msg] } none
          | _, _ => .crashed "KeyError in embedded error payload"
      | none =>
          .ok { st with
            log := st.log ++ [LogEvent.info ("Retrieved " ++ t.dirName)] }
            (some resp)

/-- Outcome of `write_json_file`: either control continues with an updated
state, or `finish_export` was invoked (directory-creation failure) and the
process exited with the resulting summary. -/
inductive WriteOutcome where
  | next (st : RunState)
  | aborted (f : FinalResult)

/-- Full path `write_json_file` builds for its arguments. -/
def writePath (t : RType) (name file_type : String) : String :=
  let filepath := "definitions/" ++ t.dirName ++ "/"
  if file_type == "list" then filepath ++ t.dirName ++ "-list.json"
  else if file_type == "definition" then
    filepath ++ name ++ "-" ++ t.dirName ++ ".json"
  else filepath ++ name

/-- `write_json_file`: create `definitions/<t>/` if absent (a creation
failure logs critically, prints, and calls `finish_export`), build the
filename from `file_type`, then dump the JSON.  A successful definition
save logs and increments the success counter; a failed definition save
logs an error and increments the failure counter; list saves touch no
counter either way. -/
def write_json_file (env : Env) (t : RType) (name file_type : String)
    (st : RunState) : WriteOutcome :=
  let filepath := "definitions/" ++ t.dirName ++ "/"
  let dirKnown := env.dirExists t || st.dirs.contains t
  if !dirKnown && env.mkdirFails t then
    let error_msg := "Failed to create " ++ filepath ++ " directory; exiting"
    WriteOutcome.aborted (finish_export
      { st with log := st.log ++ [LogEvent.critical error_msg],
                console := st.console ++ [error_msg] })
  else
    let st :=
      if !dirKnown then
        { st with dirs := st.dirs ++ [t],
                  log := st.log ++
                    [LogEvent.info ("Created " ++ filepath ++ " directory")] }
      else st
    let filename := writePath t name file_type
    if env.writeFails filename then
      let st := { st with
        log := st.log ++
          [LogEvent.error ("Failed to save \"" ++ name ++ "\" " ++ t.dirName)] }
      if file_type == "definition" then
        WriteOutcome.next { st with failures := st.failures.incr t }
      else WriteOutcome.next st
    else
      let st := { st with files := st.files ++ [⟨t, file_type, name, filename⟩] }
      if file_type == "definition" then
        WriteOutcome.next { st with
          log := st.log ++
            [LogEvent.info ("Saved \"" ++ name ++ "\" " ++ t.dirName)],
          successes := st.successes.incr t }
      else if file_type == "list" then
        WriteOutcome.next { st with
          log := st.log ++ [LogEvent.info ("Saved " ++ t.dirName ++ " list")] }
      else WriteOutcome.next st

/-- Python `name.replace('/', '--')`: every `/` becomes `--`. -/
def sanitizeName (s : String) : String :=
  String.mk (s.data.flatMap (fun c => if c = '/' then ['-', '-'] else [c]))

/-- Outcome of a piece of the driver loop: control continues, or the
process exited through `finish_export`, or an exception escaped. -/
inductive StepResult where
  | next (st : RunState)
  | exited (f : FinalResult)
  | crashed (msg : String)

/-- The driver's inner loop (`for index, resource in enumerate(resources)`):
fetch each listed item's definition and, when a truthy payload came back,
save it under the sanitized display name; print a progress line each
iteration. -/
def processItems (env : Env) (t : RType) (items : List JValue)
    (index total : Nat) (st : RunState) : StepResult :=
  match items with
  | [] => .next st
  | item :: rest =>
    match item.lookup (json_object_id t) with
    | none => .crashed "KeyError: resource id field missing"
    | some rid =>
      match get_quicksight_resource env t rid st with
      | .crashed msg => .crashed msg
      | .ok st payload =>
        let progress := fun (st : RunState) =>
          { st with console := st.console ++
              ["Saved " ++ toString (index + 1) ++ " of " ++ toString total ++
               " " ++ t.dirName, "\x1b[1A\x1b[2K"] }
        match payload with
        | some resource_json =>
          if resource_json.truthy then
            match item.lookup "Name" with
            | some (JValue.str nm) =>
              match write_json_file env t (sanitizeName nm) "definition" st with
              | .aborted f => .exited f
              | .next st => processItems env t rest (index + 1) total (progress st)
            | some _ => .crashed "AttributeError: Name is not a string"
            | none => .crashed "KeyError: Name field missing"
          else processItems env t rest (index + 1) total (progress st)
        | none => processItems env t rest (index + 1) total (progress st)

/-- The driver's body for one resource type: list the resources (skipping
the type when the list call failed or returned a falsy payload), save the
list file, extract the summary array from the type-specific field, and run
the inner loop over it. -/
def processType (env : Env) (t : RType) (st : RunState) : StepResult :=
  match list_quicksight_resources env t st with
  | (st, none) => .next st
  | (st, some list_json) =>
    if !list_json.truthy then .next st
    else
      match write_json_file env t "" "list" st with
      | .aborted f => .exited f
      | .next st =>
        match list_json.lookup (json_object_name t) with
        | none => .crashed "KeyError: summary list field missing"
        | some (JValue.arr resources) =>
            processItems env t resources 0 resources.length st
        | some _ => .crashed "TypeError: summary list field is not a list"

/-- What the whole process ends with: a `finish_export` exit, or an
uncaught exception (a non-zero interpreter exit). -/
inductive RunResult where
  | finished (f : FinalResult)
  | crashed (msg : String)
deriving DecidableEq, Repr

/-- The driver's outer loop over the requested resource types, followed by
the final `finish_export()`. -/
def runTypes (env : Env) (ts : List RType) (st : RunState) : RunResult :=
  match ts with
  | [] => .finished (finish_export st)
  | t :: rest =>
    match processType env t st with
    | .crashed msg => .crashed msg
    | .exited f => .finished f
    | .next st => runTypes env rest st

/-- Resource-type selection from the `-t`/`--type` option (`none` when the
option is absent): a missing or empty value selects all three types in the
fixed order; otherwise the characters `d`, `a`, `b` select `data_sets`,
`analyses`, `dashboards`, appended in that fixed order. -/
def selectResourceTypes (ty : Option String) : List RType :=
  let s := match ty with | none => "" | some s => s
  if s.data.isEmpty then [RType.data_sets, RType.analyses, RType.dashboards]
  else
    (if s.data.contains 'd' then [RType.data_sets] else []) ++
    (if s.data.contains 'a' then [RType.analyses] else []) ++
    (if s.data.contains 'b' then [RType.dashboards] else [])

/-- One whole script invocation: select the resource types from the `-t`
option and run the driver loop from the all-zero initial state. -/
def runExport (env : Env) (ty : Option String) : RunResult :=
  runTypes env (selectResourceTypes ty) initState

/-- Number of items the run lists for a type: the length of the summary
array of a successful, truthy list response, and 0 otherwise. -/
def listedCount (env : Env) (t : RType) : Nat :=
  match env.listCall t with
  | .raises _ => 0
  | .ok resp =>
    if !resp.truthy then 0
    else match resp.lookup (json_object_name t) with
      | some (JValue.arr resources) => resources.length
      | _ => 0

/-- A list response whose summary array is well-shaped: when the payload is
truthy, the type-specific field holds an array whose members each carry the
type-specific identifier field and a string `Name`. -/
def WellFormedList (env : Env) (t : RType) : Prop :=
  match env.listCall t with
  | CallResult.raises _ => True
  | CallResult.ok resp =>
    resp.truthy = true →
    ∃ items, resp.lookup (json_object_name t) = some (JValue.arr items) ∧
      ∀ item ∈ items, (∃ rid, item.lookup (json_object_id t) = some rid) ∧
        ∃ nm, item.lookup "Name" = some (JValue.str nm)

/-- A describe response whose embedded `Error` object, when present,
carries `Code` and `Message` fields (the documented error shape the source
indexes without guarding). -/
def WellFormedFetch (env : Env) (t : RType) (rid : JValue) : Prop :=
  match env.describeCall t rid with
  | CallResult.raises _ => True
  | CallResult.ok resp =>
    ∀ errObj, resp.lookup "Error" = some errObj →
      (∃ c, errObj.lookup "Code" = some c) ∧
      (∃ m, errObj.lookup "Message" = some m)

/-- An environment whose remote responses follow the documented shapes. -/
def WellFormed (env : Env) : Prop :=
  ∀ t, WellFormedList env t ∧ ∀ rid, WellFormedFetch env t rid

/-- A resource summary record with the given identifier and display name,
for a given resource type. -/
def summaryItem (t : RType) (rid nm : String) : JValue :=
  JValue.obj [(json_object_id t, JValue.str rid), ("Name", JValue.str nm)]

/-- A well-formed list response holding the given summary records. -/
def listResp (t : RType) (items : List JValue) : JValue :=
  JValue.obj [(json_object_name t, JValue.arr items)]

/-- A plain successful describe payload. -/
def goodDef (rid : String) : JValue :=
  JValue.obj [("Definition", JValue.str rid)]

/-- A transport-successful describe payload carrying an embedded error
object in the documented shape. -/
def errDef : JValue :=
  JValue.obj [("Error", JValue.obj
    [("Code", JValue.str "AccessDenied"), ("Message", JValue.str "denied")])]

/-- Scenario environment: three dashboards listed; the describe call for
`d2` returns a payload with an embedded error, the other two succeed; the
filesystem never fails. -/
def envC1 : Env :=
  { listCall := fun t => match t with
      | RType.dashboards => CallResult.ok (listResp RType.dashboards
          [summaryItem RType.dashboards "d1" "Alpha",
           summaryItem RType.dashboards "d2" "Beta",
           summaryItem RType.dashboards "d3" "Gamma"])
      | _ => CallResult.raises "unused"
    describeCall := fun _ rid => match rid with
      | JValue.str s =>
          if s = "d2" then CallResult.ok errDef else CallResult.ok (goodDef s)
      | _ => CallResult.raises "bad id"
    dirExists := fun _ => true
    mkdirFails := fun _ => false
    writeFails := fun _ => false }

/-- Scenario environment: the data-set list succeeds with one item but the
target directory does not exist and creating it fails. -/
def envC3 : Env :=
  { listCall := fun t => match t with
      | RType.data_sets => CallResult.ok (listResp RType.data_sets
          [summaryItem RType.data_sets "s1" "One"])
      | _ => CallResult.raises "unused"
    describeCall := fun _ rid => match rid with
      | JValue.str s => CallResult.ok (goodDef s)
      | _ => CallResult.raises "bad id"
    dirExists := fun _ => false
    mkdirFails := fun _ => true
    writeFails := fun _ => false }

/-- Scenario environment: the list call for `analyses` raises a transport
error while the dashboard list succeeds with one item. -/
def envC4 : Env :=
  { listCall := fun t => match t with
      | RType.analyses => CallResult.raises "simulated transport error"
      | RType.dashboards => CallResult.ok (listResp RType.dashboards
          [summaryItem RType.dashboards "d1" "Home"])
      | RType.data_sets => CallResult.raises "unused"
    describeCall := fun _ rid => match rid with
      | JValue.str s => CallResult.ok (goodDef s)
      | _ => CallResult.raises "bad id"
    dirExists := fun _ => true
    mkdirFails := fun _ => false
    writeFails := fun _ => false }

/-- Scenario environment: two data sets, one named `Sales/Q1` and one named
`Sales-Q2`; every remote call and every file operation succeeds. -/
def envC5 : Env :=
  { listCall := fun t => match t with
      | RType.data_sets => CallResult.ok (listResp RType.data_sets
          [summaryItem RType.data_sets "s1" "Sales/Q1",
           summaryItem RType.data_sets "s2" "Sales-Q2"])
      | _ => CallResult.raises "unused"
    describeCall := fun _ rid => match rid with
      | JValue.str s => CallResult.ok (goodDef s)
      | _ => CallResult.raises "bad id"
    dirExists := fun _ => true
    mkdirFails := fun _ => false
    writeFails := fun _ => false }

/-- Scenario environment: writing the definition file for the data set
named `Bad` fails with an I/O error; everything else succeeds. -/
def envC7 : Env :=
  { listCall := fun t => match t with
      | RType.data_sets => CallResult.ok (listResp RType.data_sets
          [summaryItem RType.data_sets "s1" "Good",
           summaryItem RType.data_sets "s2" "Bad"])
      | _ => CallResult.raises "unused"
    describeCall := fun _ rid => match rid with
      | JValue.str s => CallResult.ok (goodDef s)
      | _ => CallResult.raises "bad id"
    dirExists := fun _ => true
    mkdirFails := fun _ => false
    writeFails := fun p => p == "definitions/data_sets/Bad-data_sets.json" }

/-- Scenario environment: every remote list call raises, so a run touches
nothing and goes straight to the summary. -/
def envC8 : Env :=
  { listCall := fun _ => CallResult.raises "down"
    describeCall := fun _ _ => CallResult.raises "down"
    dirExists := fun _ => true
    mkdirFails := fun _ => false
    writeFails := fun _ => false }

/-- Scenario environment: the data-set list call returns a falsy payload
(an empty dict) and the dashboard describe call returns a falsy payload. -/
def envC10 : Env :=
  { listCall := fun t => match t with
      | RType.data_sets => CallResult.ok (JValue.obj [])
      | RType.dashboards => CallResult.ok (listResp RType.dashboards
          [summaryItem RType.dashboards "d1" "Home"])
      | RType.analyses => CallResult.raises "unused"
    describeCall := fun _ _ => CallResult.ok (JValue.obj [])
    dirExists := fun _ => true
    mkdirFails := fun _ => false
    writeFails := fun _ => false }

/-- Final counters of successes when the process exited normally. -/
def finalSuccesses : RunResult → Option Counters
  | .finished f => some f.successes
  | .crashed _ => none

/-- Final counters of failures when the process exited normally. -/
def finalFailures : RunResult → Option Counters
  | .finished f => some f.failures
  | .crashed _ => none

/-- Files written during the run when the process exited normally. -/
def finalFiles : RunResult → Option (List FileRecord)
  | .finished f => some f.files
  | .crashed _ => none

/-- The final result of a normally-exiting run (placeholder otherwise),
used to name concrete run outcomes in witnesses. -/
def finalOf : RunResult → FinalResult
  | .finished f => f
  | .crashed _ => finish_export initState

/-- The concrete final result of the `envC5` scenario run. -/
def finC5 : FinalResult := finalOf (runExport envC5 (some "d"))

/-- The concrete final result of the `envC7` scenario run. -/
def finC7 : FinalResult := finalOf (runExport envC7 (some "d"))

/-- A definition file record is well-named: its `name` is some display name
sanitized, and its path is the one `write_json_file` builds for a
definition of its resource type from that sanitized name. -/
def goodDefRecord (r : FileRecord) : Prop :=
  r.kind = "definition" →
    ∃ nm, r.name = sanitizeName nm ∧
      r.path = writePath r.rtype (sanitizeName nm) "definition"

/-!
Helper lemmas about the embedded operations, shared by the claim theorems.
-/

theorem Counters.get_incr (c : Counters) (t t' : RType) :
    (c.incr t).get t' = c.get t' + (if t' = t then 1 else 0) := by
  cases t <;> cases t' <;> simp [Counters.incr, Counters.get]

theorem Counters.get_incr_self (c : Counters) (t : RType) :
    (c.incr t).get t = c.get t + 1 := by
  simp [Counters.get_incr]

theorem Counters.get_incr_other (c : Counters) (t t' : RType) (h : t' ≠ t) :
    (c.incr t).get t' = c.get t' := by
  simp [Counters.get_incr, h]

theorem sanitizeName_no_slash (s : String) : '/' ∉ (sanitizeName s).data := by
  intro h
  rcases List.mem_flatMap.mp h with ⟨c, _, hc⟩
  by_cases hcs : c = '/'
  · subst hcs; simp at hc
  · simp [hcs] at hc
    exact hcs hc.symm

theorem selectTypes_sublist (s : String) :
    (selectResourceTypes (some s)).Sublist
      [RType.data_sets, RType.analyses, RType.dashboards] := by
  unfold selectResourceTypes
  by_cases h0 : s.data.isEmpty <;> simp only [h0, if_true, if_false]
  · exact List.Sublist.refl _
  · split_ifs <;> simp_all

theorem selectTypes_nodup (ty : Option String) :
    (selectResourceTypes ty).Nodup := by
  cases ty with
  | none => decide
  | some s => exact (selectTypes_sublist s).nodup (by decide)

theorem selectTypes_mem (s : String) (h : s.data.isEmpty = false) :
    (RType.data_sets ∈ selectResourceTypes (some s) ↔ 'd' ∈ s.data) ∧
    (RType.analyses ∈ selectResourceTypes (some s) ↔ 'a' ∈ s.data) ∧
    (RType.dashboards ∈ selectResourceTypes (some s) ↔ 'b' ∈ s.data) := by
  unfold selectResourceTypes
  simp only [h, Bool.false_eq_true, if_false, List.mem_append]
  split_ifs <;> simp_all

theorem write_abort_eq (env : Env) (t : RType) (name kind : String) (st : RunState)
    (h1 : env.dirExists t = false) (h2 : t ∉ st.dirs)
    (h3 : env.mkdirFails t = true) :
    write_json_file env t name kind st = WriteOutcome.aborted (finish_export
      { st with
        log := st.log ++ [LogEvent.critical
          ("Failed to create " ++ ("definitions/" ++ t.dirName ++ "/") ++ " directory; exiting")],
        console := st.console ++
          ["Failed to create " ++ ("definitions/" ++ t.dirName ++ "/") ++ " directory; exiting"] }) := by
  unfold write_json_file
  simp [h1, h2, h3]

theorem write_createdir_eq (env : Env) (t : RType) (name kind : String) (st : RunState)
    (h1 : env.dirExists t = false) (h2 : t ∉ st.dirs)
    (h3 : env.mkdirFails t = false) :
    write_json_file env t name kind st = write_json_file env t name kind
      { st with dirs := st.dirs ++ [t],
                log := st.log ++ [LogEvent.info
                  ("Created " ++ ("definitions/" ++ t.dirName ++ "/") ++ " directory")] } := by
  conv_lhs => rw [write_json_file]
  conv_rhs => rw [write_json_file]
  simp [h1, h2, h3]

theorem write_known_eq (env : Env) (t : RType) (name kind : String) (st : RunState)
    (hd : env.dirExists t = true ∨ t ∈ st.dirs) :
    write_json_file env t name kind st = WriteOutcome.next
      (if env.writeFails (writePath t name kind) = true then
        (if kind = "definition" then
          { st with
            log := st.log ++ [LogEvent.error ("Failed to save \"" ++ name ++ "\" " ++ t.dirName)],
            failures := st.failures.incr t }
         else
          { st with
            log := st.log ++ [LogEvent.error ("Failed to save \"" ++ name ++ "\" " ++ t.dirName)] })
      else
        (if kind = "definition" then
          { st with
            files := st.files ++ [⟨t, kind, name, writePath t name kind⟩],
            log := st.log ++ [LogEvent.info ("Saved \"" ++ name ++ "\" " ++ t.dirName)],
            successes := st.successes.incr t }
         else if kind = "list" then
          { st with
            files := st.files ++ [⟨t, kind, name, writePath t name kind⟩],
            log := st.log ++ [LogEvent.info ("Saved " ++ t.dirName ++ " list")] }
         else
          { st with files := st.files ++ [⟨t, kind, name, writePath t name kind⟩] })) := by
  have hd' : ¬(env.dirExists t = false ∧ t ∉ st.dirs) := by
    rcases hd with h | h <;> simp [h]
  unfold write_json_file
  simp only [writePath]
  by_cases hw : env.writeFails
      ("definitions/" ++ t.dirName ++ "/" ++
        (if (kind == "list") = true then t.dirName ++ "-list.json"
         else if (kind == "definition") = true then name ++ "-" ++ t.dirName ++ ".json"
         else name)) = true
  · simp [hd', hw]
    split_ifs <;> simp_all
  · simp [hd', hw]
    split_ifs <;> simp_all

theorem fetch_raises_eq (env : Env) (t : RType) (rid : JValue) (st : RunState)
    (err : String) (hc : env.describeCall t rid = CallResult.raises err) :
    get_quicksight_resource env t rid st = FetchStep.ok
      { st with
        log := st.log ++ [LogEvent.error ("AWS call for " ++ t.dirName ++ " " ++
          rid.pyStr ++ " failed: " ++ err)],
        failures := st.failures.incr t } none := by
  unfold get_quicksight_resource
  simp [hc]

theorem fetch_embedded_error_eq (env : Env) (t : RType) (rid : JValue)
    (st : RunState) (resp errObj code message : JValue)
    (hc : env.describeCall t rid = CallResult.ok resp)
    (he : resp.lookup "Error" = some errObj)
    (hcode : errObj.lookup "Code" = some code)
    (hmsg : errObj.lookup "Message" = some message) :
    get_quicksight_resource env t rid st = FetchStep.ok
      { st with
        log := st.log ++ [LogEvent.error ("Failed to retrieve " ++ t.dirName ++
          " " ++ rid.pyStr ++ " \nAWS error code: " ++ code.pyStr ++
          "; Message: " ++ message.pyStr)] } none := by
  unfold get_quicksight_resource
  simp [hc, he, hcode, hmsg]

theorem fetch_success_eq (env : Env) (t : RType) (rid : JValue)
    (st : RunState) (resp : JValue)
    (hc : env.describeCall t rid = CallResult.ok resp)
    (he : resp.lookup "Error" = none) :
    get_quicksight_resource env t rid st = FetchStep.ok
      { st with
        log := st.log ++ [LogEvent.info ("Retrieved " ++ t.dirName)] }
      (some resp) := by
  unfold get_quicksight_resource
  simp [hc, he]

theorem fetch_ok_inv (env : Env) (t : RType) (rid : JValue)
    (st st2 : RunState) (p : Option JValue)
    (h : get_quicksight_resource env t rid st = FetchStep.ok st2 p) :
    st2.successes = st.successes ∧ st2.files = st.files ∧ st2.dirs = st.dirs ∧
    st2.console = st.console ∧
    st2.failures.get t ≤ st.failures.get t + 1 ∧
    (∀ u, u ≠ t → st2.failures.get u = st.failures.get u) ∧
    (∀ v, p = some v → st2.failures = st.failures) := by
  cases hc : env.describeCall t rid with
  | raises err =>
    rw [fetch_raises_eq env t rid st err hc] at h
    injection h with h1 h2
    subst h1
    cases h2
    exact ⟨rfl, rfl, rfl, rfl, by simp [Counters.get_incr_self],
      fun u hu => Counters.get_incr_other _ _ _ hu, fun v hv => by cases hv⟩
  | ok resp =>
    cases he : resp.lookup "Error" with
    | none =>
      rw [fetch_success_eq env t rid st resp hc he] at h
      injection h with h1 h2
      subst h1
      cases h2
      exact ⟨rfl, rfl, rfl, rfl, Nat.le_succ _, fun u hu => rfl, fun v hv => rfl⟩
    | some errObj =>
      cases hcode : errObj.lookup "Code" with
      | none =>
        cases hmsg : errObj.lookup "Message" with
        | none =>
          unfold get_quicksight_resource at h
          simp [hc, he, hcode, hmsg] at h
        | some message =>
          unfold get_quicksight_resource at h
          simp [hc, he, hcode, hmsg] at h
      | some code =>
        cases hmsg : errObj.lookup "Message" with
        | none =>
          unfold get_quicksight_resource at h
          simp [hc, he, hcode, hmsg] at h
        | some message =>
          rw [fetch_embedded_error_eq env t rid st resp errObj code message
            hc he hcode hmsg] at h
          injection h with h1 h2
          subst h1
          cases h2
          exact ⟨rfl, rfl, rfl, rfl, Nat.le_succ _, fun u hu => rfl,
            fun v hv => by cases hv⟩

theorem write_known_next_counters (env : Env) (t : RType) (name kind : String)
    (st : RunState) (hd : env.dirExists t = true ∨ t ∈ st.dirs)
    (st' : RunState)
    (h : write_json_file env t name kind st = WriteOutcome.next st') :
    (∀ u, u ≠ t → st'.successes.get u = st.successes.get u ∧
                  st'.failures.get u = st.failures.get u) ∧
    st'.successes.get t + st'.failures.get t ≤
      st.successes.get t + st.failures.get t + 1 ∧
    (kind = "list" → st'.successes = st.successes ∧ st'.failures = st.failures) := by
  rw [write_known_eq env t name kind st hd] at h
  injection h with h1
  subst h1
  refine ⟨?_, ?_, ?_⟩
  · intro u hu
    split_ifs <;> simp [Counters.get_incr_other _ _ _ hu]
  · split_ifs <;> simp [Counters.get_incr_self] <;> omega
  · intro hk
    subst hk
    split_ifs <;> simp_all

theorem write_next_counters (env : Env) (t : RType) (name kind : String)
    (st st' : RunState)
    (h : write_json_file env t name kind st = WriteOutcome.next st') :
    (∀ u, u ≠ t → st'.successes.get u = st.successes.get u ∧
                  st'.failures.get u = st.failures.get u) ∧
    st'.successes.get t + st'.failures.get t ≤
      st.successes.get t + st.failures.get t + 1 ∧
    (kind = "list" → st'.successes = st.successes ∧ st'.failures = st.failures) := by
  by_cases h1 : env.dirExists t = true ∨ t ∈ st.dirs
  · exact write_known_next_counters env t name kind st h1 st' h
  · push_neg at h1
    obtain ⟨hde, hdm⟩ := h1
    replace hde : env.dirExists t = false := by simpa using hde
    by_cases h3 : env.mkdirFails t = true
    · rw [write_abort_eq env t name kind st hde hdm h3] at h
      cases h
    · replace h3 : env.mkdirFails t = false := by simpa using h3
      rw [write_createdir_eq env t name kind st hde hdm h3] at h
      exact write_known_next_counters env t name kind
        { st with dirs := st.dirs ++ [t],
                  log := st.log ++ [LogEvent.info
                    ("Created " ++ ("definitions/" ++ t.dirName ++ "/") ++ " directory")] }
        (Or.inr (by simp)) st' h

theorem write_known_next_files (env : Env) (t : RType) (name kind : String)
    (st : RunState) (hd : env.dirExists t = true ∨ t ∈ st.dirs)
    (st' : RunState)
    (h : write_json_file env t name kind st = WriteOutcome.next st') :
    st'.files = st.files ∨
    st'.files = st.files ++ [⟨t, kind, name, writePath t name kind⟩] := by
  rw [write_known_eq env t name kind st hd] at h
  injection h with h1
  subst h1
  split_ifs <;> simp

theorem write_next_files (env : Env) (t : RType) (name kind : String)
    (st st' : RunState)
    (h : write_json_file env t name kind st = WriteOutcome.next st') :
    st'.files = st.files ∨
    st'.files = st.files ++ [⟨t, kind, name, writePath t name kind⟩] := by
  by_cases h1 : env.dirExists t = true ∨ t ∈ st.dirs
  · exact write_known_next_files env t name kind st h1 st' h
  · push_neg at h1
    obtain ⟨hde, hdm⟩ := h1
    replace hde : env.dirExists t = false := by simpa using hde
    by_cases h3 : env.mkdirFails t = true
    · rw [write_abort_eq env t name kind st hde hdm h3] at h
      cases h
    · replace h3 : env.mkdirFails t = false := by simpa using h3
      rw [write_createdir_eq env t name kind st hde hdm h3] at h
      exact write_known_next_files env t name kind
        { st with dirs := st.dirs ++ [t],
                  log := st.log ++ [LogEvent.info
                    ("Created " ++ ("definitions/" ++ t.dirName ++ "/") ++ " directory")] }
        (Or.inr (by simp)) st' h

theorem write_aborted_inv (env : Env) (t : RType) (name kind : String)
    (st : RunState) (f : FinalResult)
    (h : write_json_file env t name kind st = WriteOutcome.aborted f) :
    ∃ stf, f = finish_export stf ∧ stf.successes = st.successes ∧
      stf.failures = st.failures ∧ stf.files = st.files := by
  by_cases h1 : env.dirExists t = true ∨ t ∈ st.dirs
  · rw [write_known_eq env t name kind st h1] at h
    cases h
  · push_neg at h1
    obtain ⟨hde, hdm⟩ := h1
    replace hde : env.dirExists t = false := by simpa using hde
    by_cases h3 : env.mkdirFails t = true
    · rw [write_abort_eq env t name kind st hde hdm h3] at h
      injection h with h1
      exact ⟨_, h1.symm, rfl, rfl, rfl⟩
    · replace h3 : env.mkdirFails t = false := by simpa using h3
      rw [write_createdir_eq env t name kind st hde hdm h3] at h
      rw [write_known_eq env t name kind _ (Or.inr (by simp))] at h
      cases h

theorem write_total (env : Env) (t : RType) (name kind : String)
    (st : RunState) :
    (∃ st', write_json_file env t name kind st = WriteOutcome.next st') ∨
    (∃ f, write_json_file env t name kind st = WriteOutcome.aborted f) := by
  cases hw : write_json_file env t name kind st with
  | next st' => exact Or.inl ⟨st', rfl⟩
  | aborted f => exact Or.inr ⟨f, rfl⟩

theorem processItems_cons_shape (env : Env) (t : RType) (item : JValue)
    (rest : List JValue) (i n : Nat) (st : RunState) :
    (∃ m, processItems env t (item :: rest) i n st = StepResult.crashed m) ∨
    (∃ f, processItems env t (item :: rest) i n st = StepResult.exited f ∧
      f.successes.get t + f.failures.get t ≤
        st.successes.get t + st.failures.get t + 1 ∧
      (∀ u, u ≠ t → f.successes.get u = st.successes.get u ∧
                    f.failures.get u = st.failures.get u) ∧
      f.files = st.files ∧ (∃ stf, f = finish_export stf)) ∨
    (∃ st2, processItems env t (item :: rest) i n st =
        processItems env t rest (i + 1) n st2 ∧
      st2.successes.get t + st2.failures.get t ≤
        st.successes.get t + st.failures.get t + 1 ∧
      (∀ u, u ≠ t → st2.successes.get u = st.successes.get u ∧
                    st2.failures.get u = st.failures.get u) ∧
      (st2.files = st.files ∨ ∃ nm, st2.files =
        st.files ++ [⟨t, "definition", sanitizeName nm,
          writePath t (sanitizeName nm) "definition"⟩])) := by
  cases hid : item.lookup (json_object_id t) with
  | none =>
    exact Or.inl ⟨"KeyError: resource id field missing",
      by simp [processItems, hid]⟩
  | some rid =>
    cases hf : get_quicksight_resource env t rid st with
    | crashed m => exact Or.inl ⟨m, by simp [processItems, hid, hf]⟩
    | ok st2 p =>
      obtain ⟨hsucc, hfiles, hdirs, hcons, hle, hother, hsome⟩ :=
        fetch_ok_inv env t rid st st2 p hf
      cases p with
      | none =>
        refine Or.inr (Or.inr ⟨{ st2 with console := st2.console ++
            ["Saved " ++ toString (i + 1) ++ " of " ++ toString n ++ " " ++
             t.dirName, "\x1b[1A\x1b[2K"] },
          by simp [processItems, hid, hf], ?_, ?_, ?_⟩)
        · dsimp only
          rw [hsucc]
          omega
        · intro u hu
          simp [hsucc, hother u hu]
        · simp [hfiles]
      | some v =>
        have hfail : st2.failures = st.failures := hsome v rfl
        by_cases ht : v.truthy = true
        · cases hnm : item.lookup "Name" with
          | none =>
            exact Or.inl ⟨"KeyError: Name field missing",
              by simp [processItems, hid, hf, ht, hnm]⟩
          | some w =>
            cases w with
            | str nm =>
              cases hw : write_json_file env t (sanitizeName nm) "definition" st2 with
              | aborted f =>
                obtain ⟨stf, hfeq, hfs, hff, hffi⟩ :=
                  write_aborted_inv env t (sanitizeName nm) "definition" st2 f hw
                refine Or.inr (Or.inl ⟨f, by simp [processItems, hid, hf, ht, hnm, hw],
                  ?_, ?_, ?_, ⟨stf, hfeq⟩⟩)
                · rw [hfeq]
                  simp [finish_export, hfs, hff, hsucc, hfail]
                · intro u hu
                  rw [hfeq]
                  simp [finish_export, hfs, hff, hsucc, hfail]
                · rw [hfeq]
                  simp [finish_export, hffi, hfiles]
              | next st3 =>
                obtain ⟨hwother, hwle, _⟩ :=
                  write_next_counters env t (sanitizeName nm) "definition" st2 st3 hw
                have hwfiles :=
                  write_next_files env t (sanitizeName nm) "definition" st2 st3 hw
                refine Or.inr (Or.inr ⟨{ st3 with console := st3.console ++
            ["Saved " ++ toString (i + 1) ++ " of " ++ toString n ++ " " ++
             t.dirName, "\x1b[1A\x1b[2K"] },
                  by simp [processItems, hid, hf, ht, hnm, hw], ?_, ?_, ?_⟩)
                · dsimp only
                  calc st3.successes.get t + st3.failures.get t ≤
                      st2.successes.get t + st2.failures.get t + 1 := hwle
                    _ = st.successes.get t + st.failures.get t + 1 := by
                      rw [hsucc, hfail]
                · intro u hu
                  obtain ⟨h1, h2⟩ := hwother u hu
                  simp [h1, h2, hsucc, hfail, hother u hu]
                · rcases hwfiles with h1 | h1
                  · exact Or.inl (by simp [h1, hfiles])
                  · exact Or.inr ⟨nm, by simp [h1, hfiles]⟩
            | null =>
              exact Or.inl ⟨"AttributeError: Name is not a string",
                by simp [processItems, hid, hf, ht, hnm]⟩
            | bool b =>
              exact Or.inl ⟨"AttributeError: Name is not a string",
                by simp [processItems, hid, hf, ht, hnm]⟩
            | num m =>
              exact Or.inl ⟨"AttributeError: Name is not a string",
                by simp [processItems, hid, hf, ht, hnm]⟩
            | arr xs =>
              exact Or.inl ⟨"AttributeError: Name is not a string",
                by simp [processItems, hid, hf, ht, hnm]⟩
            | obj fs =>
              exact Or.inl ⟨"AttributeError: Name is not a string",
                by simp [processItems, hid, hf, ht, hnm]⟩
        · refine Or.inr (Or.inr ⟨{ st2 with console := st2.console ++
            ["Saved " ++ toString (i + 1) ++ " of " ++ toString n ++ " " ++
             t.dirName, "\x1b[1A\x1b[2K"] },
            by simp [processItems, hid, hf, ht], ?_, ?_, ?_⟩)
          · dsimp only
            rw [hsucc, hfail]
            omega
          · intro u hu
            simp [hsucc, hfail]
          · simp [hfiles]

theorem processItems_inv (env : Env) (t : RType) :
    ∀ (items : List JValue) (i n : Nat) (st : RunState),
      (∀ st', processItems env t items i n st = StepResult.next st' →
        st'.successes.get t + st'.failures.get t ≤
          st.successes.get t + st.failures.get t + items.length ∧
        (∀ u, u ≠ t → st'.successes.get u = st.successes.get u ∧
                      st'.failures.get u = st.failures.get u) ∧
        ((∀ r ∈ st.files, goodDefRecord r) →
          ∀ r ∈ st'.files, goodDefRecord r)) ∧
      (∀ f, processItems env t items i n st = StepResult.exited f →
        f.successes.get t + f.failures.get t ≤
          st.successes.get t + st.failures.get t + items.length ∧
        (∀ u, u ≠ t → f.successes.get u = st.successes.get u ∧
                      f.failures.get u = st.failures.get u) ∧
        ((∀ r ∈ st.files, goodDefRecord r) →
          ∀ r ∈ f.files, goodDefRecord r) ∧
        (∃ stf, f = finish_export stf)) := by
  intro items
  induction items with
  | nil =>
    intro i n st
    constructor
    · intro st' h
      simp only [processItems] at h
      injection h with h1
      subst h1
      exact ⟨by simp, fun u hu => ⟨rfl, rfl⟩, fun hg => hg⟩
    · intro f h
      simp only [processItems] at h
      cases h
  | cons item rest ih =>
    intro i n st
    rcases processItems_cons_shape env t item rest i n st with
      ⟨m, hm⟩ | ⟨f0, hm, hle0, hother0, hfiles0, hfin0⟩ |
      ⟨st2, heq, hle2, hother2, hfiles2⟩
    · constructor
      · intro st' h
        rw [hm] at h
        cases h
      · intro f h
        rw [hm] at h
        cases h
    · constructor
      · intro st' h
        rw [hm] at h
        cases h
      · intro f h
        rw [hm] at h
        injection h with h1
        subst h1
        refine ⟨by simpa using Nat.le_trans hle0 (by simp), hother0, ?_, hfin0⟩
        intro hg r hr
        rw [hfiles0] at hr
        exact hg r hr
    · have hnew : ∀ r ∈ st2.files, r ∈ st.files ∨ goodDefRecord r := by
        intro r hr
        rcases hfiles2 with h1 | ⟨nm, h1⟩
        · rw [h1] at hr
          exact Or.inl hr
        · rw [h1] at hr
          rcases List.mem_append.mp hr with h2 | h2
          · exact Or.inl h2
          · refine Or.inr ?_
            rcases List.mem_singleton.mp h2 with rfl
            intro _
            exact ⟨nm, rfl, rfl⟩
      constructor
      · intro st' h
        rw [heq] at h
        obtain ⟨hA, hB, hC⟩ := (ih (i + 1) n st2).1 st' h
        refine ⟨?_, ?_, ?_⟩
        · simp only [List.length_cons]
          omega
        · intro u hu
          obtain ⟨e1, e2⟩ := hB u hu
          obtain ⟨e3, e4⟩ := hother2 u hu
          exact ⟨e1.trans e3, e2.trans e4⟩
        · intro hg
          refine hC ?_
          intro r hr
          rcases hnew r hr with h1 | h1
          · exact hg r h1
          · exact h1
      · intro f h
        rw [heq] at h
        obtain ⟨hA, hB, hC, hD⟩ := (ih (i + 1) n st2).2 f h
        refine ⟨?_, ?_, ?_, hD⟩
        · simp only [List.length_cons]
          omega
        · intro u hu
          obtain ⟨e1, e2⟩ := hB u hu
          obtain ⟨e3, e4⟩ := hother2 u hu
          exact ⟨e1.trans e3, e2.trans e4⟩
        · intro hg
          refine hC ?_
          intro r hr
          rcases hnew r hr with h1 | h1
          · exact hg r h1
          · exact h1

theorem listRecord_good (t : RType) (name : String) :
    goodDefRecord ⟨t, "list", name, writePath t name "list"⟩ := by
  intro h
  simp [goodDefRecord] at h

theorem processType_inv (env : Env) (t : RType) (st : RunState) :
    (∀ st', processType env t st = StepResult.next st' →
      st'.successes.get t + st'.failures.get t ≤
        st.successes.get t + st.failures.get t + listedCount env t ∧
      (∀ u, u ≠ t → st'.successes.get u = st.successes.get u ∧
                    st'.failures.get u = st.failures.get u) ∧
      ((∀ r ∈ st.files, goodDefRecord r) →
        ∀ r ∈ st'.files, goodDefRecord r)) ∧
    (∀ f, processType env t st = StepResult.exited f →
      f.successes.get t + f.failures.get t ≤
        st.successes.get t + st.failures.get t + listedCount env t ∧
      (∀ u, u ≠ t → f.successes.get u = st.successes.get u ∧
                    f.failures.get u = st.failures.get u) ∧
      ((∀ r ∈ st.files, goodDefRecord r) →
        ∀ r ∈ f.files, goodDefRecord r) ∧
      (∃ stf, f = finish_export stf)) := by
  cases hl : env.listCall t with
  | raises err =>
    have hPT : processType env t st = StepResult.next
        { st with
          log := st.log ++ [LogEvent.error
            ("Failed to retrieve " ++ t.dirName ++ " list: " ++ err)],
          console := st.console ++
            ["Failed to retrieve " ++ t.dirName ++ " list: " ++ err] } := by
      simp [processType, list_quicksight_resources, hl]
    constructor
    · intro st' h
      rw [hPT] at h
      injection h with h1
      subst h1
      exact ⟨by simp, fun u hu => ⟨rfl, rfl⟩, fun hg => hg⟩
    · intro f h
      rw [hPT] at h
      cases h
  | ok resp =>
    by_cases htr : resp.truthy = true
    · cases hw : write_json_file env t "" "list"
        { st with
          log := st.log ++ [LogEvent.info ("Retrieved " ++ t.dirName ++ " list")],
          console := st.console ++ ["Retrieved " ++ t.dirName ++ " list"] } with
      | aborted f0 =>
        have hPT : processType env t st = StepResult.exited f0 := by
          simp [processType, list_quicksight_resources, hl, htr, hw]
        obtain ⟨stf, hfeq, hfs, hff, hffi⟩ := write_aborted_inv _ _ _ _ _ _ hw
        dsimp only at hfs hff hffi
        constructor
        · intro st' h
          rw [hPT] at h
          cases h
        · intro f h
          rw [hPT] at h
          injection h with h1
          subst h1
          refine ⟨?_, ?_, ?_, ⟨stf, hfeq⟩⟩
          · rw [hfeq]
            simp [finish_export, hfs, hff]
          · intro u hu
            rw [hfeq]
            simp [finish_export, hfs, hff]
          · intro hg r hr
            rw [hfeq] at hr
            simp only [finish_export] at hr
            rw [hffi] at hr
            exact hg r hr
      | next st3 =>
        obtain ⟨hwother, hwle, hwlist⟩ := write_next_counters _ _ _ _ _ _ hw
        obtain ⟨hw1, hw2⟩ := hwlist rfl
        have hwfiles := write_next_files _ _ _ _ _ _ hw
        dsimp only at hwother hwle hw1 hw2 hwfiles
        have hg3 : (∀ r ∈ st.files, goodDefRecord r) →
            ∀ r ∈ st3.files, goodDefRecord r := by
          intro hg r hr
          rcases hwfiles with h1 | h1
          · rw [h1] at hr
            exact hg r hr
          · rw [h1] at hr
            rcases List.mem_append.mp hr with h2 | h2
            · exact hg r h2
            · rcases List.mem_singleton.mp h2 with rfl
              exact listRecord_good t ""
        cases hlo : resp.lookup (json_object_name t) with
        | none =>
          have hPT : processType env t st =
              StepResult.crashed "KeyError: summary list field missing" := by
            simp [processType, list_quicksight_resources, hl, htr, hw, hlo]
          constructor
          · intro st' h
            rw [hPT] at h
            cases h
          · intro f h
            rw [hPT] at h
            cases h
        | some lv =>
          cases lv with
          | arr resources =>
            have hPT : processType env t st =
                processItems env t resources 0 resources.length st3 := by
              simp [processType, list_quicksight_resources, hl, htr, hw, hlo]
            have hcount : listedCount env t = resources.length := by
              simp [listedCount, hl, htr, hlo]
            constructor
            · intro st' h
              rw [hPT] at h
              obtain ⟨hA, hB, hC⟩ :=
                (processItems_inv env t resources 0 resources.length st3).1 st' h
              rw [hw1, hw2] at hA
              refine ⟨?_, ?_, ?_⟩
              · rw [hcount]
                omega
              · intro u hu
                obtain ⟨e1, e2⟩ := hB u hu
                rw [hw1] at e1
                rw [hw2] at e2
                exact ⟨e1, e2⟩
              · intro hg
                exact hC (hg3 hg)
            · intro f h
              rw [hPT] at h
              obtain ⟨hA, hB, hC, hD⟩ :=
                (processItems_inv env t resources 0 resources.length st3).2 f h
              rw [hw1, hw2] at hA
              refine ⟨?_, ?_, ?_, hD⟩
              · rw [hcount]
                omega
              · intro u hu
                obtain ⟨e1, e2⟩ := hB u hu
                rw [hw1] at e1
                rw [hw2] at e2
                exact ⟨e1, e2⟩
              · intro hg
                exact hC (hg3 hg)
          | null =>
            have hPT : processType env t st = StepResult.crashed
                "TypeError: summary list field is not a list" := by
              simp [processType, list_quicksight_resources, hl, htr, hw, hlo]
            constructor
            · intro st' h
              rw [hPT] at h
              cases h
            · intro f h
              rw [hPT] at h
              cases h
          | bool b =>
            have hPT : processType env t st = StepResult.crashed
                "TypeError: summary list field is not a list" := by
              simp [processType, list_quicksight_resources, hl, htr, hw, hlo]
            constructor
            · intro st' h
              rw [hPT] at h
              cases h
            · intro f h
              rw [hPT] at h
              cases h
          | num m =>
            have hPT : processType env t st = StepResult.crashed
                "TypeError: summary list field is not a list" := by
              simp [processType, list_quicksight_resources, hl, htr, hw, hlo]
            constructor
            · intro st' h
              rw [hPT] at h
              cases h
            · intro f h
              rw [hPT] at h
              cases h
          | str sv =>
            have hPT : processType env t st = StepResult.crashed
                "TypeError: summary list field is not a list" := by
              simp [processType, list_quicksight_resources, hl, htr, hw, hlo]
            constructor
            · intro st' h
              rw [hPT] at h
              cases h
            · intro f h
              rw [hPT] at h
              cases h
          | obj fs =>
            have hPT : processType env t st = StepResult.crashed
                "TypeError: summary list field is not a list" := by
              simp [processType, list_quicksight_resources, hl, htr, hw, hlo]
            constructor
            · intro st' h
              rw [hPT] at h
              cases h
            · intro f h
              rw [hPT] at h
              cases h
    · have hPT : processType env t st = StepResult.next
          { st with
            log := st.log ++ [LogEvent.info ("Retrieved " ++ t.dirName ++ " list")],
            console := st.console ++ ["Retrieved " ++ t.dirName ++ " list"] } := by
        simp [processType, list_quicksight_resources, hl, htr]
      constructor
      · intro st' h
        rw [hPT] at h
        injection h with h1
        subst h1
        exact ⟨by simp, fun u hu => ⟨rfl, rfl⟩, fun hg => hg⟩
      · intro f h
        rw [hPT] at h
        cases h

theorem runTypes_inv (env : Env) :
    ∀ (ts : List RType) (st : RunState) (f : FinalResult),
      ts.Nodup → runTypes env ts st = RunResult.finished f →
      (∀ t, f.successes.get t + f.failures.get t ≤
        st.successes.get t + st.failures.get t +
          (if t ∈ ts then listedCount env t else 0)) ∧
      ((∀ r ∈ st.files, goodDefRecord r) → ∀ r ∈ f.files, goodDefRecord r) ∧
      (∃ stf, f = finish_export stf) := by
  intro ts
  induction ts with
  | nil =>
    intro st f hnd h
    simp only [runTypes] at h
    injection h with h1
    subst h1
    refine ⟨fun t => by simp [finish_export], ?_, ⟨st, rfl⟩⟩
    intro hg r hr
    simp only [finish_export] at hr
    exact hg r hr
  | cons t0 rest ih =>
    intro st f hnd h
    cases hp : processType env t0 st with
    | crashed m =>
      simp only [runTypes, hp] at h
      cases h
    | exited f0 =>
      simp only [runTypes, hp] at h
      injection h with h1
      subst h1
      obtain ⟨hA, hB, hC, hD⟩ := (processType_inv env t0 st).2 f0 hp
      refine ⟨?_, hC, hD⟩
      intro t
      by_cases hte : t = t0
      · subst hte
        simp only [List.mem_cons, true_or, if_true]
        exact hA
      · obtain ⟨e1, e2⟩ := hB t hte
        rw [e1, e2]
        split_ifs <;> omega
    | next st1 =>
      simp only [runTypes, hp] at h
      obtain ⟨ihA, ihB, ihC⟩ := ih st1 f (List.nodup_cons.mp hnd).2 h
      obtain ⟨pA, pB, pC⟩ := (processType_inv env t0 st).1 st1 hp
      refine ⟨?_, fun hg => ihB (pC hg), ihC⟩
      intro t
      by_cases hte : t = t0
      · subst hte
        have ht0 : t ∉ rest := (List.nodup_cons.mp hnd).1
        have hbound := ihA t
        rw [if_neg ht0] at hbound
        simp only [List.mem_cons, true_or, if_true]
        omega
      · have hbound := ihA t
        obtain ⟨e1, e2⟩ := pB t hte
        rw [e1, e2] at hbound
        have hmem : t ∈ t0 :: rest ↔ t ∈ rest := by simp [hte]
        by_cases hr : t ∈ rest
        · rw [if_pos hr] at hbound
          rw [if_pos (hmem.mpr hr)]
          exact hbound
        · rw [if_neg hr] at hbound
          rw [if_neg (fun hx => hr (hmem.mp hx))]
          exact hbound

theorem processItems_no_crash (env : Env) (t : RType)
    (hwf : ∀ rid, WellFormedFetch env t rid) :
    ∀ (items : List JValue), (∀ item ∈ items,
        (∃ rid, item.lookup (json_object_id t) = some rid) ∧
        ∃ nm, item.lookup "Name" = some (JValue.str nm)) →
      ∀ (i n : Nat) (st : RunState),
        (∃ st', processItems env t items i n st = StepResult.next st') ∨
        (∃ f, processItems env t items i n st = StepResult.exited f) := by
  intro items
  induction items with
  | nil =>
    intro _ i n st
    exact Or.inl ⟨st, by simp [processItems]⟩
  | cons item rest ihi =>
    intro hitems i n st
    obtain ⟨⟨rid, hid⟩, nm, hnm⟩ := hitems item (List.mem_cons_self _ _)
    have hrest := fun it hit => hitems it (List.mem_cons_of_mem _ hit)
    have hwfr := hwf rid
    unfold WellFormedFetch at hwfr
    cases hc : env.describeCall t rid with
    | raises err =>
      have hF := fetch_raises_eq env t rid st err hc
      have hstep : processItems env t (item :: rest) i n st =
          processItems env t rest (i + 1) n
            { st with
              log := st.log ++ [LogEvent.error ("AWS call for " ++ t.dirName ++
                " " ++ rid.pyStr ++ " failed: " ++ err)],
              failures := st.failures.incr t,
              console := st.console ++
                ["Saved " ++ toString (i + 1) ++ " of " ++ toString n ++ " " ++
                 t.dirName, "\x1b[1A\x1b[2K"] } := by
        simp [processItems, hid, hF]
      rcases ihi hrest (i + 1) n _ with ⟨st', h⟩ | ⟨f, h⟩
      · exact Or.inl ⟨st', hstep.trans h⟩
      · exact Or.inr ⟨f, hstep.trans h⟩
    | ok resp =>
      rw [hc] at hwfr
      cases he : resp.lookup "Error" with
      | some errObj =>
        obtain ⟨⟨c, hcode⟩, mg, hmsg⟩ := hwfr errObj he
        have hF := fetch_embedded_error_eq env t rid st resp errObj c mg hc he hcode hmsg
        have hstep : processItems env t (item :: rest) i n st =
            processItems env t rest (i + 1) n
              { st with
                log := st.log ++ [LogEvent.error ("Failed to retrieve " ++
                  t.dirName ++ " " ++ rid.pyStr ++ " \nAWS error code: " ++
                  c.pyStr ++ "; Message: " ++ mg.pyStr)],
                console := st.console ++
                  ["Saved " ++ toString (i + 1) ++ " of " ++ toString n ++ " " ++
                   t.dirName, "\x1b[1A\x1b[2K"] } := by
          simp [processItems, hid, hF]
        rcases ihi hrest (i + 1) n _ with ⟨st', h⟩ | ⟨f, h⟩
        · exact Or.inl ⟨st', hstep.trans h⟩
        · exact Or.inr ⟨f, hstep.trans h⟩
      | none =>
        have hF := fetch_success_eq env t rid st resp hc he
        have hlog : ∀ s : RunState,
            ({ s with log := s.log ++ [LogEvent.info ("Retrieved " ++ t.dirName)] }
              : RunState).files = s.files := fun s => rfl
        by_cases ht : resp.truthy = true
        · cases hw : write_json_file env t (sanitizeName nm) "definition"
            { st with log := st.log ++ [LogEvent.info ("Retrieved " ++ t.dirName)] } with
          | aborted f =>
            refine Or.inr ⟨f, ?_⟩
            simp [processItems, hid, hF, ht, hnm, hw]
          | next st3 =>
            have hstep : processItems env t (item :: rest) i n st =
                processItems env t rest (i + 1) n
                  { st3 with console := st3.console ++
                    ["Saved " ++ toString (i + 1) ++ " of " ++ toString n ++ " " ++
                     t.dirName, "\x1b[1A\x1b[2K"] } := by
              simp [processItems, hid, hF, ht, hnm, hw]
            rcases ihi hrest (i + 1) n _ with ⟨st', h⟩ | ⟨f, h⟩
            · exact Or.inl ⟨st', hstep.trans h⟩
            · exact Or.inr ⟨f, hstep.trans h⟩
        · have hstep : processItems env t (item :: rest) i n st =
              processItems env t rest (i + 1) n
                { st with
                  log := st.log ++ [LogEvent.info ("Retrieved " ++ t.dirName)],
                  console := st.console ++
                    ["Saved " ++ toString (i + 1) ++ " of " ++ toString n ++ " " ++
                     t.dirName, "\x1b[1A\x1b[2K"] } := by
            simp [processItems, hid, hF, ht]
          rcases ihi hrest (i + 1) n _ with ⟨st', h⟩ | ⟨f, h⟩
          · exact Or.inl ⟨st', hstep.trans h⟩
          · exact Or.inr ⟨f, hstep.trans h⟩

theorem processType_no_crash (env : Env) (t : RType) (st : RunState)
    (hwfl : WellFormedList env t)
    (hwff : ∀ rid, WellFormedFetch env t rid) :
    (∃ st', processType env t st = StepResult.next st') ∨
    (∃ f, processType env t st = StepResult.exited f) := by
  unfold WellFormedList at hwfl
  cases hl : env.listCall t with
  | raises err =>
    exact Or.inl ⟨{ st with
      log := st.log ++ [LogEvent.error
        ("Failed to retrieve " ++ t.dirName ++ " list: " ++ err)],
      console := st.console ++
        ["Failed to retrieve " ++ t.dirName ++ " list: " ++ err] },
      by simp [processType, list_quicksight_resources, hl]⟩
  | ok resp =>
    rw [hl] at hwfl
    by_cases htr : resp.truthy = true
    · obtain ⟨items, hlo, hitems⟩ := hwfl htr
      cases hw : write_json_file env t "" "list"
          { st with
            log := st.log ++ [LogEvent.info ("Retrieved " ++ t.dirName ++ " list")],
            console := st.console ++ ["Retrieved " ++ t.dirName ++ " list"] } with
      | aborted f =>
        exact Or.inr ⟨f, by simp [processType, list_quicksight_resources, hl, htr, hw]⟩
      | next st3 =>
        have hitems' : ∀ item ∈ items,
            (∃ rid, item.lookup (json_object_id t) = some rid) ∧
            ∃ nm, item.lookup "Name" = some (JValue.str nm) := by
          intro it hit
          obtain ⟨h1, h2⟩ := hitems it hit
          exact ⟨h1, h2⟩
        have hPT : processType env t st =
            processItems env t items 0 items.length st3 := by
          simp [processType, list_quicksight_resources, hl, htr, hw, hlo]
        rcases processItems_no_crash env t hwff items hitems' 0 items.length st3 with
          ⟨st', h⟩ | ⟨f, h⟩
        · exact Or.inl ⟨st', hPT.trans h⟩
        · exact Or.inr ⟨f, hPT.trans h⟩
    · exact Or.inl ⟨{ st with
        log := st.log ++ [LogEvent.info ("Retrieved " ++ t.dirName ++ " list")],
        console := st.console ++ ["Retrieved " ++ t.dirName ++ " list"] },
        by simp [processType, list_quicksight_resources, hl, htr]⟩

theorem runTypes_no_crash (env : Env) (hwf : WellFormed env) :
    ∀ (ts : List RType) (st : RunState),
      ∃ f, runTypes env ts st = RunResult.finished f ∧
        ∃ stf, f = finish_export stf := by
  intro ts
  induction ts with
  | nil =>
    intro st
    exact ⟨finish_export st, by simp [runTypes], ⟨st, rfl⟩⟩
  | cons t0 rest ih =>
    intro st
    rcases processType_no_crash env t0 st (hwf t0).1 (hwf t0).2 with
      ⟨st1, hp⟩ | ⟨f0, hp⟩
    · obtain ⟨f, hf, hfin⟩ := ih st1
      exact ⟨f, by simp [runTypes, hp, hf], hfin⟩
    · obtain ⟨_, _, _, hD⟩ := (processType_inv env t0 st).2 f0 hp
      exact ⟨f0, by simp [runTypes, hp], hD⟩

/-!
Claim theorems.
-/

/-- Claim C1, counterexample.  The claim says an embedded error payload in a
describe response increments the failure counter for the type by exactly 1,
so a run over three dashboards with one embedded-error response should end
with `failures['dashboards'] == 1`.  On the code it ends with
`failures['dashboards'] == 0` (and `successes['dashboards'] == 2`): the
embedded-error branch of `get_quicksight_resource` logs and returns `None`
but never touches the failure counter. -/
theorem c1_embedded_error_counterexample :
    finalFailures (runExport envC1 (some "b")) = some ⟨0, 0, 0⟩ ∧
    finalFailures (runExport envC1 (some "b")) ≠ some ⟨0, 0, 1⟩ ∧
    finalSuccesses (runExport envC1 (some "b")) = some ⟨0, 0, 2⟩ := by
  refine ⟨by rfl, by decide, by rfl⟩

/-- Claim C1, amended.  When a describe call succeeds at the transport
level but the payload embeds an `Error` object, the Fetcher logs the error
and returns absent, leaving both counters (and everything else except the
log) unchanged — it does not increment the failure counter; the driver then
writes no definition file for that item.  In the three-dashboard scenario
with one embedded error the run ends with `failures['dashboards'] == 0`,
`successes['dashboards'] == 2`, and no file for the failed dashboard. -/
theorem c1_embedded_error_amended :
    (∀ (env : Env) (t : RType) (rid : JValue) (st : RunState)
      (resp errObj code message : JValue),
      env.describeCall t rid = CallResult.ok resp →
      resp.lookup "Error" = some errObj →
      errObj.lookup "Code" = some code →
      errObj.lookup "Message" = some message →
      get_quicksight_resource env t rid st = FetchStep.ok
        { st with log := st.log ++ [LogEvent.error ("Failed to retrieve " ++
          t.dirName ++ " " ++ rid.pyStr ++ " \nAWS error code: " ++
          code.pyStr ++ "; Message: " ++ message.pyStr)] } none) ∧
    finalFailures (runExport envC1 (some "b")) = some ⟨0, 0, 0⟩ ∧
    finalSuccesses (runExport envC1 (some "b")) = some ⟨0, 0, 2⟩ ∧
    finalFiles (runExport envC1 (some "b")) = some
      [⟨RType.dashboards, "list", "",
        "definitions/dashboards/dashboards-list.json"⟩,
       ⟨RType.dashboards, "definition", "Alpha",
        "definitions/dashboards/Alpha-dashboards.json"⟩,
       ⟨RType.dashboards, "definition", "Gamma",
        "definitions/dashboards/Gamma-dashboards.json"⟩] := by
  refine ⟨fun env t rid st resp errObj code message hc he hcode hmsg =>
    fetch_embedded_error_eq env t rid st resp errObj code message
      hc he hcode hmsg, by rfl, by rfl, by rfl⟩

/-- Claim C1, witness for the amended theorem: the embedded-error describe
response for dashboard `d2` in the scenario environment makes the Fetcher
log the error and return absent with the counters untouched. -/
theorem c1_embedded_error_amended_witness :
    get_quicksight_resource envC1 RType.dashboards (JValue.str "d2")
      initState = FetchStep.ok
      { initState with log := initState.log ++ [LogEvent.error
        ("Failed to retrieve " ++ RType.dashboards.dirName ++ " " ++
          (JValue.str "d2").pyStr ++ " \nAWS error code: " ++
          (JValue.str "AccessDenied").pyStr ++ "; Message: " ++
          (JValue.str "denied").pyStr)] } none :=
  c1_embedded_error_amended.1 envC1 RType.dashboards (JValue.str "d2")
    initState errDef
    (JValue.obj [("Code", JValue.str "AccessDenied"),
      ("Message", JValue.str "denied")])
    (JValue.str "AccessDenied") (JValue.str "denied") rfl rfl rfl rfl

/-- Claim C6, counterexample.  The claim says the types selected by `-t`
are processed in the order implied by the characters of the `-t` string,
so `-t "bd"` should process dashboards before data sets.  On the code the
selection is always appended in the fixed order `d`, `a`, `b`, so
`-t "bd"` selects `[data_sets, dashboards]`, not
`[dashboards, data_sets]`. -/
theorem c6_type_order_counterexample :
    selectResourceTypes (some "bd") = [RType.data_sets, RType.dashboards] ∧
    ([RType.data_sets, RType.dashboards] : List RType) ≠
      [RType.dashboards, RType.data_sets] := by
  exact ⟨by decide, by decide⟩

/-- Claim C6, amended.  When `--type`/`-t` is absent, exactly the three
types `data_sets`, `analyses`, `dashboards` are processed in that fixed
order; when `-t` is a non-empty string, the characters `d`, `a`, `b`
select `data_sets`, `analyses`, `dashboards` respectively, and the
selected types are always processed in the fixed order `data_sets`,
`analyses`, `dashboards`, regardless of the order of the characters. -/
theorem c6_type_selection_amended :
    selectResourceTypes none =
      [RType.data_sets, RType.analyses, RType.dashboards] ∧
    (∀ s : String, (selectResourceTypes (some s)).Sublist
      [RType.data_sets, RType.analyses, RType.dashboards]) ∧
    (∀ s : String, s.data.isEmpty = false →
      (RType.data_sets ∈ selectResourceTypes (some s) ↔ 'd' ∈ s.data) ∧
      (RType.analyses ∈ selectResourceTypes (some s) ↔ 'a' ∈ s.data) ∧
      (RType.dashboards ∈ selectResourceTypes (some s) ↔ 'b' ∈ s.data)) :=
  ⟨by decide, selectTypes_sublist, selectTypes_mem⟩

/-- Claim C6, witness for the amended theorem at `-t "bd"`: the selection
is a subsequence of the fixed order and contains exactly the types named
by the characters. -/
theorem c6_type_selection_amended_witness :
    (selectResourceTypes (some "bd")).Sublist
      [RType.data_sets, RType.analyses, RType.dashboards] ∧
    (RType.dashboards ∈ selectResourceTypes (some "bd") ↔ 'b' ∈ "bd".data) :=
  ⟨c6_type_selection_amended.2.1 "bd",
   (c6_type_selection_amended.2.2 "bd" (by decide)).2.2⟩

/-- Claim C9.  The `-t` selection is exactly the subset named by the
characters `d`, `a`, `b`, each type appearing at most once, always in the
fixed order `data_sets`, `analyses`, `dashboards`; the empty string
behaves like an absent option and selects all three; and a non-empty
string containing none of `d`, `a`, `b` selects no types, so the run goes
straight to `finish_export` on the all-zero initial state. -/
theorem c9_selection_semantics :
    (selectResourceTypes (some "") = selectResourceTypes none ∧
     selectResourceTypes none =
       [RType.data_sets, RType.analyses, RType.dashboards]) ∧
    (∀ s : String, (selectResourceTypes (some s)).Sublist
      [RType.data_sets, RType.analyses, RType.dashboards] ∧
      (selectResourceTypes (some s)).Nodup) ∧
    (∀ s : String, s.data.isEmpty = false →
      (RType.data_sets ∈ selectResourceTypes (some s) ↔ 'd' ∈ s.data) ∧
      (RType.analyses ∈ selectResourceTypes (some s) ↔ 'a' ∈ s.data) ∧
      (RType.dashboards ∈ selectResourceTypes (some s) ↔ 'b' ∈ s.data)) ∧
    (∀ (env : Env) (s : String), s.data.isEmpty = false →
      'd' ∉ s.data → 'a' ∉ s.data → 'b' ∉ s.data →
      runExport env (some s) =
        RunResult.finished (finish_export initState) ∧
      (finish_export initState).successes = ⟨0, 0, 0⟩ ∧
      (finish_export initState).failures = ⟨0, 0, 0⟩ ∧
      (finish_export initState).files = []) := by
  refine ⟨⟨by decide, by decide⟩,
    fun s => ⟨selectTypes_sublist s, selectTypes_nodup (some s)⟩,
    selectTypes_mem, ?_⟩
  intro env s h0 hd ha hb
  have hsel : selectResourceTypes (some s) = [] := by
    unfold selectResourceTypes
    simp only [h0, Bool.false_eq_true, if_false]
    split_ifs <;> simp_all
  refine ⟨?_, rfl, rfl, rfl⟩
  unfold runExport
  rw [hsel]
  simp [runTypes]

/-- Claim C9, witness: `-t "xyz"` selects no types and the run on an
environment that is never consulted ends at once with the summary of the
all-zero initial state. -/
theorem c9_selection_semantics_witness :
    runExport envC8 (some "xyz") =
      RunResult.finished (finish_export initState) ∧
    (RType.data_sets ∈ selectResourceTypes (some "xyz") ↔ 'd' ∈ "xyz".data) :=
  ⟨(c9_selection_semantics.2.2.2 envC8 "xyz" (by decide) (by decide)
      (by decide) (by decide)).1,
   (c9_selection_semantics.2.2.1 "xyz" (by decide)).1⟩

/-- Claim C3.  A directory-creation failure aborts the run gracefully
through `finish_export`: `write_json_file` logs a critical message, prints
it, and hands control to `finish_export`, which logs and prints the
summary built from the counters accumulated so far and exits with status
0; the driver stops there rather than continuing with further types.  In
the scenario environment the run still emits the (all-zero) summary and
exits 0. -/
theorem c3_mkdir_failure_graceful :
    (∀ (env : Env) (t : RType) (name kind : String) (st : RunState),
      env.dirExists t = false → t ∉ st.dirs → env.mkdirFails t = true →
      write_json_file env t name kind st = WriteOutcome.aborted (finish_export
        { st with
          log := st.log ++ [LogEvent.critical
            ("Failed to create " ++ ("definitions/" ++ t.dirName ++ "/") ++
             " directory; exiting")],
          console := st.console ++
            ["Failed to create " ++ ("definitions/" ++ t.dirName ++ "/") ++
             " directory; exiting"] })) ∧
    (∀ st : RunState, (finish_export st).exitCode = 0 ∧
      (finish_export st).summary = summaryString st.successes st.failures ∧
      (finish_export st).log = st.log ++
        [LogEvent.info (summaryString st.successes st.failures)] ∧
      (finish_export st).console = st.console ++
        [summaryString st.successes st.failures] ∧
      (finish_export st).successes = st.successes ∧
      (finish_export st).failures = st.failures) ∧
    (∀ (env : Env) (t : RType) (rest : List RType) (st : RunState)
      (f : FinalResult),
      processType env t st = StepResult.exited f →
      runTypes env (t :: rest) st = RunResult.finished f) ∧
    (finalOf (runExport envC3 none)).exitCode = 0 ∧
    (finalOf (runExport envC3 none)).summary =
      summaryString ⟨0, 0, 0⟩ ⟨0, 0, 0⟩ ∧
    summaryString ⟨0, 0, 0⟩ ⟨0, 0, 0⟩ ∈ (finalOf (runExport envC3 none)).console ∧
    LogEvent.critical "Failed to create definitions/data_sets/ directory; exiting"
      ∈ (finalOf (runExport envC3 none)).log ∧
    finalFiles (runExport envC3 none) = some [] := by
  refine ⟨write_abort_eq, fun st => ⟨rfl, rfl, rfl, rfl, rfl, rfl⟩,
    ?_, by rfl, by rfl, by decide, by decide, by rfl⟩
  intro env t rest st f h
  simp [runTypes, h]

/-- Claim C3, witness: with the scenario environment the very first write
for `data_sets` aborts through `finish_export`, and the driver maps that
abort to a finished run. -/
theorem c3_mkdir_failure_graceful_witness :
    write_json_file envC3 RType.data_sets "" "list" initState =
      WriteOutcome.aborted (finish_export
      { initState with
        log := initState.log ++ [LogEvent.critical
          ("Failed to create " ++
            ("definitions/" ++ RType.data_sets.dirName ++ "/") ++
           " directory; exiting")],
        console := initState.console ++
          ["Failed to create " ++
            ("definitions/" ++ RType.data_sets.dirName ++ "/") ++
           " directory; exiting"] }) ∧
    (finish_export initState).exitCode = 0 :=
  ⟨c3_mkdir_failure_graceful.1 envC3 RType.data_sets "" "list" initState
    rfl (by decide) rfl,
   (c3_mkdir_failure_graceful.2.1 initState).1⟩

/-- Claim C4.  When the remote list call for a type raises, the Lister
logs and prints the error and returns absent, and the driver's pass over
that type changes nothing but the log and console: no counters move, no
file is written, and the run continues with the next requested type.  In
the scenario environment the failed `analyses` list leaves
`successes['analyses'] == failures['analyses'] == 0` and no `analyses`
files while `dashboards` is still processed. -/
theorem c4_list_failure_skips_type :
    (∀ (env : Env) (t : RType) (st : RunState) (err : String),
      env.listCall t = CallResult.raises err →
      processType env t st = StepResult.next
        { st with
          log := st.log ++ [LogEvent.error
            ("Failed to retrieve " ++ t.dirName ++ " list: " ++ err)],
          console := st.console ++
            ["Failed to retrieve " ++ t.dirName ++ " list: " ++ err] }) ∧
    (∀ (env : Env) (t : RType) (rest : List RType) (st st' : RunState),
      processType env t st = StepResult.next st' →
      runTypes env (t :: rest) st = runTypes env rest st') ∧
    finalSuccesses (runExport envC4 (some "ab")) = some ⟨0, 0, 1⟩ ∧
    finalFailures (runExport envC4 (some "ab")) = some ⟨0, 0, 0⟩ ∧
    finalFiles (runExport envC4 (some "ab")) = some
      [⟨RType.dashboards, "list", "",
        "definitions/dashboards/dashboards-list.json"⟩,
       ⟨RType.dashboards, "definition", "Home",
        "definitions/dashboards/Home-dashboards.json"⟩] := by
  refine ⟨?_, ?_, by rfl, by rfl, by rfl⟩
  · intro env t st err h
    simp [processType, list_quicksight_resources, h]
  · intro env t rest st st' h
    simp [runTypes, h]

/-- Claim C4, witness: the raising `analyses` list call in the scenario
environment makes `processType` a pure log/console update, and the driver
continues with the remaining types from that state. -/
theorem c4_list_failure_skips_type_witness :
    processType envC4 RType.analyses initState = StepResult.next
      { initState with
        log := initState.log ++ [LogEvent.error
          ("Failed to retrieve " ++ RType.analyses.dirName ++ " list: " ++
           "simulated transport error")],
        console := initState.console ++
          ["Failed to retrieve " ++ RType.analyses.dirName ++ " list: " ++
           "simulated transport error"] } ∧
    runTypes envC4 [RType.analyses] initState = runTypes envC4 []
      { initState with
        log := initState.log ++ [LogEvent.error
          ("Failed to retrieve " ++ RType.analyses.dirName ++ " list: " ++
           "simulated transport error")],
        console := initState.console ++
          ["Failed to retrieve " ++ RType.analyses.dirName ++ " list: " ++
           "simulated transport error"] } := by
  have h1 := c4_list_failure_skips_type.1 envC4 RType.analyses initState
    "simulated transport error" rfl
  exact ⟨h1, c4_list_failure_skips_type.2.1 envC4 RType.analyses [] initState _ h1⟩

/-- Claim C7.  The Writer's exact effect on the counters: a successful
definition save appends the file and increments only the success counter
of the type; a failed definition save logs an error and increments only
the failure counter; a list save never changes either counter whatever its
outcome; and the Fetcher never changes the success counter (its only
counter effect is the failure increment of the exception path).  In the
scenario environment one good and one bad definition save end the run with
`successes['data_sets'] == failures['data_sets'] == 1`. -/
theorem c7_writer_counter_effects :
    (∀ (env : Env) (t : RType) (name : String) (st : RunState),
      env.dirExists t = true ∨ t ∈ st.dirs →
      (env.writeFails (writePath t name "definition") = false →
        write_json_file env t name "definition" st = WriteOutcome.next
          { st with
            files := st.files ++
              [⟨t, "definition", name, writePath t name "definition"⟩],
            log := st.log ++
              [LogEvent.info ("Saved \"" ++ name ++ "\" " ++ t.dirName)],
            successes := st.successes.incr t }) ∧
      (env.writeFails (writePath t name "definition") = true →
        write_json_file env t name "definition" st = WriteOutcome.next
          { st with
            log := st.log ++
              [LogEvent.error ("Failed to save \"" ++ name ++ "\" " ++ t.dirName)],
            failures := st.failures.incr t })) ∧
    (∀ (env : Env) (t : RType) (name : String) (st st' : RunState),
      write_json_file env t name "list" st = WriteOutcome.next st' →
      st'.successes = st.successes ∧ st'.failures = st.failures) ∧
    (∀ (env : Env) (t : RType) (rid : JValue) (st st2 : RunState)
      (p : Option JValue),
      get_quicksight_resource env t rid st = FetchStep.ok st2 p →
      st2.successes = st.successes) ∧
    finalSuccesses (runExport envC7 (some "d")) = some ⟨1, 0, 0⟩ ∧
    finalFailures (runExport envC7 (some "d")) = some ⟨1, 0, 0⟩ ∧
    finalFiles (runExport envC7 (some "d")) = some
      [⟨RType.data_sets, "list", "",
        "definitions/data_sets/data_sets-list.json"⟩,
       ⟨RType.data_sets, "definition", "Good",
        "definitions/data_sets/Good-data_sets.json"⟩] := by
  refine ⟨?_, ?_, ?_, by rfl, by rfl, by rfl⟩
  · intro env t name st hd
    constructor
    · intro hw
      rw [write_known_eq env t name "definition" st hd]
      simp [hw]
    · intro hw
      rw [write_known_eq env t name "definition" st hd]
      simp [hw]
  · intro env t name st st' h
    exact (write_next_counters env t name "list" st st' h).2.2 rfl
  · intro env t rid st st2 p h
    exact (fetch_ok_inv env t rid st st2 p h).1

/-- Claim C7, witness: in the scenario environment the save of the data
set named `Bad` fails and increments only the failure counter, while the
save of `Good` succeeds and increments only the success counter. -/
theorem c7_writer_counter_effects_witness :
    write_json_file envC7 RType.data_sets "Bad" "definition" initState =
      WriteOutcome.next
      { initState with
        log := initState.log ++ [LogEvent.error
          ("Failed to save \"" ++ "Bad" ++ "\" " ++ RType.data_sets.dirName)],
        failures := initState.failures.incr RType.data_sets } ∧
    write_json_file envC7 RType.data_sets "Good" "definition" initState =
      WriteOutcome.next
      { initState with
        files := initState.files ++
          [⟨RType.data_sets, "definition", "Good",
            writePath RType.data_sets "Good" "definition"⟩],
        log := initState.log ++ [LogEvent.info
          ("Saved \"" ++ "Good" ++ "\" " ++ RType.data_sets.dirName)],
        successes := initState.successes.incr RType.data_sets } :=
  ⟨(c7_writer_counter_effects.1 envC7 RType.data_sets "Bad" initState
      (Or.inl rfl)).2 (by decide),
   (c7_writer_counter_effects.1 envC7 RType.data_sets "Good" initState
      (Or.inl rfl)).1 (by decide)⟩

/-- Claim C10.  Falsy payloads are treated as absence at both stages: a
falsy (but transport-successful) list response makes the driver skip the
type with only the Lister's log and console lines added — exactly as a
failed list call, without counting anything — and a falsy definition
payload makes the driver write no file and change no counter for that
item.  In the scenario environment (falsy data-set list, falsy dashboard
definitions) the run ends with all counters zero and only the dashboard
list file written. -/
theorem c10_falsy_payloads :
    (∀ (env : Env) (t : RType) (st : RunState) (resp : JValue),
      env.listCall t = CallResult.ok resp → resp.truthy = false →
      processType env t st = StepResult.next
        { st with
          log := st.log ++
            [LogEvent.info ("Retrieved " ++ t.dirName ++ " list")],
          console := st.console ++ ["Retrieved " ++ t.dirName ++ " list"] }) ∧
    (∀ (env : Env) (t : RType) (item : JValue) (rest : List JValue)
      (i n : Nat) (st : RunState) (rid resp : JValue),
      item.lookup (json_object_id t) = some rid →
      env.describeCall t rid = CallResult.ok resp →
      resp.lookup "Error" = none →
      resp.truthy = false →
      processItems env t (item :: rest) i n st =
        processItems env t rest (i + 1) n
          { st with
            log := st.log ++ [LogEvent.info ("Retrieved " ++ t.dirName)],
            console := st.console ++
              ["Saved " ++ toString (i + 1) ++ " of " ++ toString n ++ " " ++
               t.dirName, "\x1b[1A\x1b[2K"] }) ∧
    finalSuccesses (runExport envC10 (some "db")) = some ⟨0, 0, 0⟩ ∧
    finalFailures (runExport envC10 (some "db")) = some ⟨0, 0, 0⟩ ∧
    finalFiles (runExport envC10 (some "db")) = some
      [⟨RType.dashboards, "list", "",
        "definitions/dashboards/dashboards-list.json"⟩] := by
  refine ⟨?_, ?_, by rfl, by rfl, by rfl⟩
  · intro env t st resp hl htr
    simp [processType, list_quicksight_resources, hl, htr]
  · intro env t item rest i n st rid resp hid hc he htr
    have hF := fetch_success_eq env t rid st resp hc he
    simp [processItems, hid, hF, htr]

/-- Claim C10, witness: the falsy data-set list response in the scenario
environment makes the driver skip `data_sets`, and the falsy dashboard
definition payload makes the inner loop skip the write for that item. -/
theorem c10_falsy_payloads_witness :
    processType envC10 RType.data_sets initState = StepResult.next
      { initState with
        log := initState.log ++
          [LogEvent.info ("Retrieved " ++ RType.data_sets.dirName ++ " list")],
        console := initState.console ++
          ["Retrieved " ++ RType.data_sets.dirName ++ " list"] } ∧
    processItems envC10 RType.dashboards
      [summaryItem RType.dashboards "d1" "Home"] 0 1 initState =
      processItems envC10 RType.dashboards [] 1 1
        { initState with
          log := initState.log ++
            [LogEvent.info ("Retrieved " ++ RType.dashboards.dirName)],
          console := initState.console ++
            ["Saved " ++ toString 1 ++ " of " ++ toString 1 ++ " " ++
             RType.dashboards.dirName, "\x1b[1A\x1b[2K"] } :=
  ⟨c10_falsy_payloads.1 envC10 RType.data_sets initState (JValue.obj []) rfl rfl,
   c10_falsy_payloads.2.1 envC10 RType.dashboards
     (summaryItem RType.dashboards "d1" "Home") [] 0 1 initState
     (JValue.str "d1") (JValue.obj []) rfl rfl rfl rfl⟩

theorem dirName_no_slash (t : RType) : '/' ∉ t.dirName.data := by
  cases t <;> decide

/-- Claim C2.  Each listed item contributes at most one counter increment
(a Fetcher failure increments `failures[t]` once and returns before any
Writer call, so the Writer cannot add a second increment for the same
item), hence at the end of any normally-finishing run
`successes[t] + failures[t]` is at most the number of items listed
for `t`. -/
theorem c2_counter_bound :
    ∀ (env : Env) (ty : Option String) (f : FinalResult),
      runExport env ty = RunResult.finished f →
      ∀ t, f.successes.get t + f.failures.get t ≤ listedCount env t := by
  intro env ty f h t
  obtain ⟨hA, _, _⟩ := runTypes_inv env (selectResourceTypes ty) initState f
    (selectTypes_nodup ty) h
  have hb := hA t
  have h0s : initState.successes.get t = 0 := by cases t <;> rfl
  have h0f : initState.failures.get t = 0 := by cases t <;> rfl
  rw [h0s, h0f] at hb
  split_ifs at hb <;> omega

/-- Claim C2, witness: in the three-dashboard scenario run the dashboards
counters sum to 2, which is at most the 3 dashboards listed. -/
theorem c2_counter_bound_witness :
    runExport envC1 (some "b") =
      RunResult.finished (finalOf (runExport envC1 (some "b"))) ∧
    (finalOf (runExport envC1 (some "b"))).successes.get RType.dashboards +
      (finalOf (runExport envC1 (some "b"))).failures.get RType.dashboards ≤
      listedCount envC1 RType.dashboards :=
  ⟨rfl, c2_counter_bound envC1 (some "b") _ rfl RType.dashboards⟩

/-- Claim C5.  Every definition file a run writes has path
`definitions/<t>/<sanitized name>-<t>.json` where the sanitized name is
the display name with every `/` replaced by `--`; consequently neither the
sanitized name nor the whole definition filename contains a `/`.  In the
spec's scenario (`Sales/Q1` and `Sales-Q2`) the run writes exactly the
list file plus `Sales--Q1-data_sets.json` and `Sales-Q2-data_sets.json`
and counts 2 successes. -/
theorem c5_definition_filenames :
    (∀ (env : Env) (ty : Option String) (f : FinalResult),
      runExport env ty = RunResult.finished f →
      ∀ r ∈ f.files, r.kind = "definition" →
        ∃ nm, r.name = sanitizeName nm ∧
          r.path = "definitions/" ++ r.rtype.dirName ++ "/" ++ r.name ++
            "-" ++ r.rtype.dirName ++ ".json" ∧
          '/' ∉ r.name.data ∧
          '/' ∉ (r.name ++ "-" ++ r.rtype.dirName ++ ".json").data) ∧
    finalFiles (runExport envC5 (some "d")) = some
      [⟨RType.data_sets, "list", "",
        "definitions/data_sets/data_sets-list.json"⟩,
       ⟨RType.data_sets, "definition", "Sales--Q1",
        "definitions/data_sets/Sales--Q1-data_sets.json"⟩,
       ⟨RType.data_sets, "definition", "Sales-Q2",
        "definitions/data_sets/Sales-Q2-data_sets.json"⟩] ∧
    finalSuccesses (runExport envC5 (some "d")) = some ⟨2, 0, 0⟩ := by
  refine ⟨?_, by rfl, by rfl⟩
  intro env ty f h r hr hkind
  obtain ⟨_, hB, _⟩ := runTypes_inv env (selectResourceTypes ty) initState f
    (selectTypes_nodup ty) h
  have hgood := hB (by intro x hx; cases hx) r hr
  obtain ⟨nm, hname, hpath⟩ := hgood hkind
  refine ⟨nm, hname, ?_, ?_, ?_⟩
  · rw [hpath, hname]
    simp [writePath]
  · rw [hname]
    exact sanitizeName_no_slash nm
  · rw [hname]
    intro hmem
    have hdata : (sanitizeName nm ++ "-" ++ r.rtype.dirName ++ ".json").data =
        (sanitizeName nm).data ++ "-".data ++ r.rtype.dirName.data ++
        ".json".data := rfl
    rw [hdata] at hmem
    simp only [List.mem_append] at hmem
    rcases hmem with ((h1 | h1) | h1) | h1
    · exact sanitizeName_no_slash nm h1
    · exact absurd h1 (by decide)
    · exact dirName_no_slash r.rtype h1
    · exact absurd h1 (by decide)

/-- Claim C5, witness: the definition record for the data set displayed as
`Sales/Q1` in the scenario run carries sanitized name `Sales--Q1` and the
slash-free path the claim prescribes. -/
theorem c5_definition_filenames_witness :
    ∃ nm, ("Sales--Q1" : String) = sanitizeName nm ∧
      ("definitions/data_sets/Sales--Q1-data_sets.json" : String) =
        "definitions/" ++ RType.data_sets.dirName ++ "/" ++ "Sales--Q1" ++
        "-" ++ RType.data_sets.dirName ++ ".json" ∧
      '/' ∉ ("Sales--Q1" : String).data ∧
      '/' ∉ (("Sales--Q1" : String) ++ "-" ++ RType.data_sets.dirName ++
        ".json").data :=
  c5_definition_filenames.1 envC5 (some "d") finC5 rfl
    ⟨RType.data_sets, "definition", "Sales--Q1",
     "definitions/data_sets/Sales--Q1-data_sets.json"⟩ (by decide) rfl

/-- Claim C8.  On any environment whose remote responses follow the
documented shapes, every run terminates through the single exit path
`finish_export` — whatever mixture of list failures, describe failures,
embedded errors, save failures and directory-creation failures occurs —
and the process exit status is 0; no error condition produces a distinct
non-zero exit code. -/
theorem c8_clean_exit :
    ∀ (env : Env) (ty : Option String), WellFormed env →
      ∃ f, runExport env ty = RunResult.finished f ∧ f.exitCode = 0 ∧
        ∃ stf, f = finish_export stf := by
  intro env ty hwf
  obtain ⟨f, hf, stf, hfe⟩ :=
    runTypes_no_crash env hwf (selectResourceTypes ty) initState
  exact ⟨f, hf, by rw [hfe]; rfl, ⟨stf, hfe⟩⟩

/-- Claim C8, witness: the two-data-set scenario environment is
well-formed and its run exits through `finish_export` with status 0. -/
theorem c8_clean_exit_witness :
    ∃ f, runExport envC5 (some "d") = RunResult.finished f ∧
      f.exitCode = 0 ∧ ∃ stf, f = finish_export stf := by
  refine c8_clean_exit envC5 (some "d") ?_
  intro t
  constructor
  · cases t with
    | data_sets =>
      unfold WellFormedList
      intro htr
      refine ⟨_, rfl, ?_⟩
      intro item h
      simp only [List.mem_cons, List.not_mem_nil, or_false] at h
      rcases h with rfl | rfl
      · exact ⟨⟨JValue.str "s1", rfl⟩, "Sales/Q1", rfl⟩
      · exact ⟨⟨JValue.str "s2", rfl⟩, "Sales-Q2", rfl⟩
    | analyses => exact trivial
    | dashboards => exact trivial
  · intro rid
    unfold WellFormedFetch
    cases rid with
    | str s =>
      intro errObj he
      exact Option.noConfusion he
    | null => exact trivial
    | bool b => exact trivial
    | num n => exact trivial
    | arr xs => exact trivial
    | obj fs => exact trivial
